import Mathlib

/-!
Verification of the libdummy callback-registration protocol.

The repository consists of two headers. `src/libdummy/internal.h` implements
`InternalHandler`, whose `onSend` method forwards a message to the registered
external `FFIWrapper` callback. `src/libdummy/lib.h` declares the boundary
operations `send`, `handler`, `cancel` and `shutdown` together with the
`FFIWrapper` / `FFICtx` types; the translation unit implementing those four
operations is not part of the repository, so the handler registry behind them
is modelled from the specification (spec.md §3–§4) and the claims about it are
settled against that model.

Modelling conventions: pointers (`callback_t` function pointers, the opaque
`FFIHandler` self pointer) become `Nat` identities; calling an external
callback becomes emitting a `CbInvocation` event recording which function was
called and with which arguments; the payload buffer becomes a list of byte
values with the length passed separately, exactly as in the C signature.
-/

namespace Libdummy

/-- Identity of an external `callback_t` function pointer (lib.h line 13). -/
abbrev CallbackId := Nat

/-- Value of an opaque `FFIHandler` pointer (`void*`, lib.h line 5). -/
abbrev FFIHandler := Nat

/-- `FFIWrapper` (lib.h lines 14–17): a callback function pointer `cb` plus the
`cbSelf` pointer that is passed as the callback's first argument. -/
structure FFIWrapper where
  cb : CallbackId
  cbSelf : FFIHandler
deriving DecidableEq, Repr

/-- One observed invocation of an external callback: which function pointer was
called, and the four arguments it received, in the order of the `callback_t`
signature `(FFIHandler, const char*, const char*, size_t)`. -/
structure CbInvocation where
  cb : CallbackId
  self : FFIHandler
  src : String
  arg : List Nat
  argLen : Nat
deriving DecidableEq, Repr

/-- `InternalHandler` (internal.h lines 8–24): holds the pointer `p` to the
registered `FFIWrapper`. The pointee stands in for the pointer. -/
structure InternalHandler where
  p : FFIWrapper
deriving DecidableEq, Repr

/-- `InternalHandler::onSend` (internal.h lines 19–23): executes
`p->cb(p->cbSelf, src.c_str(), arg, argLen)`. The external call is recorded as
a `CbInvocation` event; the method writes no state (it only reads `p->cb` and
`p->cbSelf`), so the handler's post-state is returned alongside the event. The
`std::cout` diagnostic line is I/O with no effect on the data model. -/
def InternalHandler.onSend (h : InternalHandler) (src : String) (arg : List Nat)
    (argLen : Nat) : CbInvocation × InternalHandler :=
  (⟨h.p.cb, h.p.cbSelf, src, arg, argLen⟩, h)

/-- Cancellation errors (spec.md §7). -/
inductive CancelError where
  | AlreadyCancelled
  | UnknownToken
deriving DecidableEq, Repr

/-- Registration-side errors (spec.md §7): `ClosedError` after shutdown,
`InvalidInput` for rejected boundary inputs. -/
inductive RegisterError where
  | ClosedError
  | InvalidInput
deriving DecidableEq, Repr

/-- A live handler entry (spec.md §3, `HandlerEntry`): destination key plus the
registered wrapper. The `alive` flag is represented structurally: only live
entries are stored, and cancellation removes the entry immediately. -/
structure HandlerEntry where
  destination : String
  wrapper : FFIWrapper
deriving DecidableEq, Repr

/-- Modelled from the spec: the `HandlerRegistry` state (spec.md §4.1). The
repository ships only the declarations of `handler`, `cancel`, `send` and
`shutdown` (lib.h); the translation unit implementing them is absent, so the
registry is modelled from spec.md §3–§4: tokens come from a monotonically
increasing counter (§4.2), entries are stored keyed by token, cancelled
entries are removed immediately (§3), and `closed` records a permanent
shutdown (§4.1 `shutdownAll`). -/
structure Registry where
  nextToken : Nat
  entries : List (Nat × HandlerEntry)
  closed : Bool
deriving DecidableEq, Repr

/-- The freshly constructed registry: no tokens issued, no entries, open. -/
def Registry.init : Registry := ⟨0, [], false⟩

/-- The tokens of the currently live entries. -/
def Registry.tokens (r : Registry) : List Nat := r.entries.map (·.1)

/-- Modelled from the spec: `register` (spec.md §4.1; `handler` in lib.h, whose
implementation is absent). Fails with `ClosedError` after shutdown and with
`InvalidInput` on an empty destination (precondition: destination non-empty);
otherwise stores a new live entry under the fresh token `nextToken` and bumps
the counter. -/
def Registry.register (r : Registry) (dest : String) (w : FFIWrapper) :
    Except RegisterError (Nat × Registry) :=
  if r.closed then .error .ClosedError
  else if dest = "" then .error .InvalidInput
  else .ok (r.nextToken,
    { nextToken := r.nextToken + 1
      entries := (r.nextToken, ⟨dest, w⟩) :: r.entries
      closed := false })

/-- Modelled from the spec: `cancel` (spec.md §4.1; `cancel` in lib.h, whose
implementation is absent). If the token maps to a live entry the entry is
removed and the call succeeds; if the token was issued but its entry is dead
the call fails with `AlreadyCancelled`; a token never issued fails with
`UnknownToken`. A token has been issued exactly when it is below `nextToken`. -/
def Registry.cancel (r : Registry) (t : Nat) : Except CancelError Registry :=
  if r.entries.any (fun e => e.1 == t) then
    .ok { r with entries := r.entries.filter (fun e => e.1 != t) }
  else if t < r.nextToken then .error .AlreadyCancelled
  else .error .UnknownToken

/-- Modelled from the spec: `dispatch` (spec.md §4.1; the delivery path behind
`send` in lib.h, whose implementation is absent). Snapshots the live entries
for the destination and invokes each one's wrapper through
`InternalHandler.onSend` (internal.h), returning the count of handlers invoked
together with the trace of callback invocations, each tagged with the token of
the entry it was delivered to. The registry state is unchanged. -/
def Registry.dispatch (r : Registry) (dest src : String) (arg : List Nat)
    (argLen : Nat) : Nat × List (Nat × CbInvocation) :=
  let snapshot := r.entries.filter (fun e => e.2.destination == dest)
  (snapshot.length,
    snapshot.map (fun e => (e.1, (InternalHandler.onSend ⟨e.2.wrapper⟩ src arg argLen).1)))

/-- Modelled from the spec: `shutdownAll` (spec.md §4.1; `shutdown` in lib.h,
whose implementation is absent). Cancels every remaining entry and marks the
registry permanently closed. -/
def Registry.shutdownAll (r : Registry) : Registry :=
  { nextToken := r.nextToken, entries := [], closed := true }

/-- Modelled from the spec: the DispatchFacade registration surface (spec.md
§4.3). External input validation: a null destination (`none`) and an empty
destination are rejected before reaching the registry. -/
def facadeRegister (r : Registry) (dest : Option String) (w : FFIWrapper) :
    Except RegisterError (Nat × Registry) :=
  match dest with
  | none => .error .InvalidInput
  | some d => if d = "" then .error .InvalidInput else r.register d w

/-- Modelled from the spec: the DispatchFacade dispatch surface (spec.md §4.3).
The external length field arrives as a signed value; a negative length, or one
overflowing `size_t` (64-bit), is rejected before reaching the registry, as is
a null or empty destination. -/
def facadeDispatch (r : Registry) (dest : Option String) (src : String)
    (arg : List Nat) (argLen : Int) :
    Except RegisterError (Nat × List (Nat × CbInvocation)) :=
  match dest with
  | none => .error .InvalidInput
  | some d =>
    if d = "" then .error .InvalidInput
    else if argLen < 0 ∨ (2 : Int) ^ 64 ≤ argLen then .error .InvalidInput
    else .ok (r.dispatch d src arg argLen.toNat)

/-- A single boundary operation, for stating temporal properties over
arbitrary interleavings of later calls. -/
inductive Op where
  | reg (dest : String) (w : FFIWrapper)
  | can (t : Nat)
  | disp (dest src : String) (arg : List Nat) (argLen : Nat)
  | shut
deriving DecidableEq, Repr

/-- The state transition of one operation: dispatch leaves the registry
unchanged, failed registrations and cancellations leave it unchanged. -/
def Registry.step (r : Registry) : Op → Registry
  | .reg d w =>
    match r.register d w with
    | .ok p => p.2
    | .error _ => r
  | .can t =>
    match r.cancel t with
    | .ok r2 => r2
    | .error _ => r
  | .disp _ _ _ _ => r
  | .shut => r.shutdownAll

/-- Run a sequence of boundary operations from a starting state. -/
def Registry.run (r : Registry) (ops : List Op) : Registry :=
  ops.foldl Registry.step r

/-- Registry well-formedness: every live token was issued (is below the
counter), and no token keys two entries. Holds in every reachable state. -/
def Registry.WF (r : Registry) : Prop :=
  (∀ e ∈ r.entries, e.1 < r.nextToken) ∧ r.tokens.Nodup

instance (r : Registry) : Decidable r.WF := by
  unfold Registry.WF
  infer_instance

/-! ### Basic lemmas about the registry operations -/

theorem Registry.register_ok {r : Registry} {d : String} {w : FFIWrapper}
    {t : Nat} {r' : Registry} (h : r.register d w = .ok (t, r')) :
    t = r.nextToken ∧ r'.nextToken = r.nextToken + 1 ∧
      r'.entries = (r.nextToken, ⟨d, w⟩) :: r.entries ∧ r'.closed = false := by
  unfold Registry.register at h
  split at h
  · exact absurd h (by simp)
  · split at h
    · exact absurd h (by simp)
    · simp only [Except.ok.injEq, Prod.mk.injEq] at h
      obtain ⟨h1, h2⟩ := h
      subst h1
      subst h2
      exact ⟨rfl, rfl, rfl, rfl⟩

theorem Registry.cancel_ok {r : Registry} {t : Nat} {r' : Registry}
    (h : r.cancel t = .ok r') :
    r'.nextToken = r.nextToken ∧ r'.closed = r.closed ∧
      r'.entries = r.entries.filter (fun e => e.1 != t) ∧ t ∈ r.tokens := by
  unfold Registry.cancel at h
  split at h
  · rename_i hany
    obtain ⟨e, he, het⟩ := List.any_eq_true.1 hany
    have ht : t ∈ r.tokens :=
      List.mem_map.2 ⟨e, he, by simpa using het⟩
    rw [← Except.ok.inj h]
    exact ⟨rfl, rfl, rfl, ht⟩
  · split at h <;> exact absurd h (by simp)

theorem Registry.tokens_cancel_ok {r : Registry} {t : Nat} {r' : Registry}
    (h : r.cancel t = .ok r') : t ∉ r'.tokens := by
  obtain ⟨-, -, hent, -⟩ := Registry.cancel_ok h
  intro hmem
  obtain ⟨e, he, rfl⟩ := List.mem_map.1 hmem
  rw [hent] at he
  have := (List.mem_filter.1 he).2
  simp at this

/-- Tokens of a cancel-surviving state embed in the original tokens. -/
theorem Registry.tokens_filter_sublist (r : Registry) (q : Nat × HandlerEntry → Bool) :
    ((r.entries.filter q).map (·.1)).Sublist r.tokens :=
  (List.filter_sublist r.entries).map (·.1)

/-! ### Preservation of a dead token across any later operation -/

/-- A token that has been issued but is no longer live. -/
def Registry.DeadToken (r : Registry) (t : Nat) : Prop :=
  t < r.nextToken ∧ t ∉ r.tokens

instance (r : Registry) (t : Nat) : Decidable (r.DeadToken t) := by
  unfold Registry.DeadToken
  infer_instance

theorem Registry.deadToken_step {r : Registry} {t : Nat} (h : r.DeadToken t)
    (op : Op) : (r.step op).DeadToken t := by
  obtain ⟨hlt, hnot⟩ := h
  cases op with
  | reg d w =>
    cases hr : r.register d w with
    | ok p =>
      obtain ⟨t', r'⟩ := p
      obtain ⟨h1, h2, h3, -⟩ := Registry.register_ok hr
      have hstep : r.step (.reg d w) = r' := by simp [Registry.step, hr]
      rw [hstep]
      refine ⟨by omega, ?_⟩
      intro hmem
      unfold Registry.tokens at hmem
      rw [h3] at hmem
      rcases List.mem_map.1 hmem with ⟨e, he, rfl⟩
      rcases List.mem_cons.1 he with rfl | he'
      · exact Nat.lt_irrefl _ hlt
      · exact hnot (List.mem_map.2 ⟨e, he', rfl⟩)
    | error err =>
      have hstep : r.step (.reg d w) = r := by simp [Registry.step, hr]
      rw [hstep]
      exact ⟨hlt, hnot⟩
  | can t' =>
    cases hr : r.cancel t' with
    | ok r2 =>
      obtain ⟨h1, -, h3, -⟩ := Registry.cancel_ok hr
      have hstep : r.step (.can t') = r2 := by simp [Registry.step, hr]
      rw [hstep]
      refine ⟨by omega, ?_⟩
      intro hmem
      unfold Registry.tokens at hmem
      rw [h3] at hmem
      exact hnot ((Registry.tokens_filter_sublist r _).mem hmem)
    | error err =>
      have hstep : r.step (.can t') = r := by simp [Registry.step, hr]
      rw [hstep]
      exact ⟨hlt, hnot⟩
  | disp d s a n => exact ⟨hlt, hnot⟩
  | shut =>
    refine ⟨hlt, ?_⟩
    intro hmem
    simp only [Registry.step, Registry.shutdownAll, Registry.tokens] at hmem
    simp at hmem

theorem Registry.deadToken_run {r : Registry} {t : Nat} (h : r.DeadToken t)
    (ops : List Op) : (r.run ops).DeadToken t := by
  induction ops generalizing r with
  | nil => exact h
  | cons op ops ih => exact ih (Registry.deadToken_step h op)

/-! ### Preservation of well-formedness -/

theorem Registry.wf_step {r : Registry} (h : r.WF) (op : Op) : (r.step op).WF := by
  obtain ⟨hbound, hnd⟩ := h
  cases op with
  | reg d w =>
    cases hr : r.register d w with
    | ok p =>
      obtain ⟨t', r'⟩ := p
      obtain ⟨h1, h2, h3, -⟩ := Registry.register_ok hr
      have hstep : r.step (.reg d w) = r' := by simp [Registry.step, hr]
      rw [hstep]
      constructor
      · intro e he
        rw [h3] at he
        rw [h2]
        rcases List.mem_cons.1 he with rfl | he'
        · exact Nat.lt_succ_self _
        · exact Nat.lt_succ_of_lt (hbound e he')
      · unfold Registry.tokens
        rw [h3]
        refine List.nodup_cons.2 ⟨?_, hnd⟩
        intro hmem
        rcases List.mem_map.1 hmem with ⟨e, he, hfst⟩
        have h5 : e.1 = r.nextToken := hfst
        have := hbound e he
        omega
    | error err =>
      have hstep : r.step (.reg d w) = r := by simp [Registry.step, hr]
      rw [hstep]
      exact ⟨hbound, hnd⟩
  | can t' =>
    cases hr : r.cancel t' with
    | ok r2 =>
      obtain ⟨h1, -, h3, -⟩ := Registry.cancel_ok hr
      have hstep : r.step (.can t') = r2 := by simp [Registry.step, hr]
      rw [hstep]
      constructor
      · intro e he
        rw [h3] at he
        rw [h1]
        exact hbound e (List.mem_filter.1 he).1
      · unfold Registry.tokens
        rw [h3]
        exact hnd.sublist (Registry.tokens_filter_sublist r _)
    | error err =>
      have hstep : r.step (.can t') = r := by simp [Registry.step, hr]
      rw [hstep]
      exact ⟨hbound, hnd⟩
  | disp d s a n => exact ⟨hbound, hnd⟩
  | shut =>
    exact ⟨by intro e he; simp [Registry.step, Registry.shutdownAll] at he,
      by simp [Registry.step, Registry.shutdownAll, Registry.tokens]⟩

theorem Registry.wf_run {r : Registry} (h : r.WF) (ops : List Op) : (r.run ops).WF := by
  induction ops generalizing r with
  | nil => exact h
  | cons op ops ih => exact ih (Registry.wf_step h op)

theorem Registry.wf_init : Registry.init.WF := by
  constructor
  · intro e he
    simp [Registry.init] at he
  · simp [Registry.init, Registry.tokens]

/-! ### Lemmas about the dispatch trace -/

theorem Registry.dispatch_mem {r : Registry} {d s : String} {a : List Nat} {n : Nat}
    {t : Nat} {inv : CbInvocation} (h : (t, inv) ∈ (r.dispatch d s a n).2) :
    ∃ he, (t, he) ∈ r.entries ∧ he.destination = d ∧
      inv = ⟨he.wrapper.cb, he.wrapper.cbSelf, s, a, n⟩ := by
  unfold Registry.dispatch at h
  simp only at h
  rcases List.mem_map.1 h with ⟨e, hef, heq⟩
  rcases List.mem_filter.1 hef with ⟨hent, hdest⟩
  simp only [Prod.mk.injEq] at heq
  obtain ⟨h1, h2⟩ := heq
  refine ⟨e.2, ?_, by simpa using hdest, ?_⟩
  · rw [← h1]
    exact hent
  · exact h2.symm

theorem Registry.dispatch_countP_eq_zero {r : Registry} {t : Nat}
    (h : t ∉ r.tokens) (d s : String) (a : List Nat) (n : Nat) :
    (r.dispatch d s a n).2.countP (fun e => e.1 == t) = 0 := by
  rw [List.countP_eq_zero]
  intro p hp hbeq
  obtain ⟨t', inv⟩ := p
  have ht : t' = t := by simpa using hbeq
  subst ht
  obtain ⟨he, hent, -, -⟩ := Registry.dispatch_mem hp
  exact h (List.mem_map.2 ⟨(t', he), hent, rfl⟩)

/-- In an association list with distinct keys, a key determines its value. -/
theorem assoc_nodup_unique {l : List (Nat × HandlerEntry)}
    (hnd : (l.map (·.1)).Nodup) {t : Nat} {a b : HandlerEntry}
    (ha : (t, a) ∈ l) (hb : (t, b) ∈ l) : a = b := by
  induction l with
  | nil => cases ha
  | cons x l ih =>
    have hx : x.1 ∉ l.map (·.1) := (List.nodup_cons.1 (by simpa using hnd)).1
    have hnd' : (l.map (·.1)).Nodup := (List.nodup_cons.1 (by simpa using hnd)).2
    rcases List.mem_cons.1 ha with rfl | ha' <;> rcases List.mem_cons.1 hb with hb' | hb'
    · exact congrArg Prod.snd hb'.symm
    · exact absurd (List.mem_map.2 ⟨(t, b), hb', rfl⟩) hx
    · rw [← hb'] at hx
      exact absurd (List.mem_map.2 ⟨(t, a), ha', rfl⟩) hx
    · exact ih hnd' ha' hb'

/-- In an association list with distinct keys, filtering and then counting
occurrences of the key of a member that survives the filter yields one. -/
theorem countP_fst_filter_eq_one {l : List (Nat × HandlerEntry)} {t : Nat}
    {he : HandlerEntry} (hnd : (l.map (·.1)).Nodup) (hmem : (t, he) ∈ l)
    {q : Nat × HandlerEntry → Bool} (hq : q (t, he) = true) :
    (l.filter q).countP (fun e => e.1 == t) = 1 := by
  induction l with
  | nil => cases hmem
  | cons x l ih =>
    have hx : x.1 ∉ l.map (·.1) := (List.nodup_cons.1 (by simpa using hnd)).1
    have hnd' : (l.map (·.1)).Nodup := (List.nodup_cons.1 (by simpa using hnd)).2
    rcases List.mem_cons.1 hmem with rfl | hmem'
    · rw [List.filter_cons, if_pos hq, List.countP_cons]
      have hz : (l.filter q).countP (fun e => e.1 == t) = 0 := by
        rw [List.countP_eq_zero]
        intro p hp hbeq
        have hpt : p.1 = t := by simpa using hbeq
        have hpl : p ∈ l := (List.filter_sublist l).mem hp
        rw [← hpt] at hx
        exact hx (List.mem_map.2 ⟨p, hpl, rfl⟩)
      rw [hz]
      simp
    · have hxt : x.1 ≠ t := by
        intro hx1
        rw [hx1] at hx
        exact hx (List.mem_map.2 ⟨(t, he), hmem', rfl⟩)
      rw [List.filter_cons]
      split
      · rw [List.countP_cons, ih hnd' hmem']
        simp [hxt]
      · exact ih hnd' hmem'

theorem Registry.cancel_dead {r : Registry} {t : Nat} (h : r.DeadToken t) :
    r.cancel t = .error .AlreadyCancelled := by
  obtain ⟨hlt, hnot⟩ := h
  have hno : ¬(r.entries.any (fun e => e.1 == t) = true) := by
    intro hany
    rcases List.any_eq_true.1 hany with ⟨e, hent, het⟩
    exact hnot (List.mem_map.2 ⟨e, hent, by simpa using het⟩)
  unfold Registry.cancel
  rw [if_neg hno, if_pos hlt]

theorem Registry.cancel_unknown {r : Registry} {t : Nat}
    (hb : ∀ e ∈ r.entries, e.1 < r.nextToken) (h : r.nextToken ≤ t) :
    r.cancel t = .error .UnknownToken := by
  have hno : ¬(r.entries.any (fun e => e.1 == t) = true) := by
    intro hany
    rcases List.any_eq_true.1 hany with ⟨e, hent, het⟩
    have h1 : e.1 = t := by simpa using het
    have h2 := hb e hent
    omega
  unfold Registry.cancel
  rw [if_neg hno, if_neg (by omega)]

theorem Registry.cancel_ok_dead {r : Registry} {t : Nat} {r' : Registry}
    (hwf : r.WF) (hc : r.cancel t = .ok r') : r'.DeadToken t := by
  obtain ⟨h1, -, -, ht⟩ := Registry.cancel_ok hc
  refine ⟨?_, Registry.tokens_cancel_ok hc⟩
  rcases List.mem_map.1 ht with ⟨e, hent, hfst⟩
  rw [h1, ← hfst]
  exact hwf.1 e hent

theorem Registry.register_closed {r : Registry} (h : r.closed = true)
    (d : String) (w : FFIWrapper) : r.register d w = .error .ClosedError := by
  unfold Registry.register
  rw [if_pos h]

theorem Registry.closed_step {r : Registry} (h : r.closed = true) (op : Op) :
    (r.step op).closed = true := by
  cases op with
  | reg d w =>
    have hreg := Registry.register_closed h d w
    simp [Registry.step, hreg]
    exact h
  | can t' =>
    cases hr : r.cancel t' with
    | ok r2 =>
      obtain ⟨-, h2, -, -⟩ := Registry.cancel_ok hr
      have hstep : r.step (.can t') = r2 := by simp [Registry.step, hr]
      rw [hstep, h2]
      exact h
    | error err =>
      have hstep : r.step (.can t') = r := by simp [Registry.step, hr]
      rw [hstep]
      exact h
  | disp d s a n => exact h
  | shut => rfl

theorem Registry.closed_run {r : Registry} (h : r.closed = true) (ops : List Op) :
    (r.run ops).closed = true := by
  induction ops generalizing r with
  | nil => exact h
  | cons op ops ih => exact ih (Registry.closed_step h op)

/-- A concrete registry with one live entry on destination "D", the state
reached by registering one wrapper on the fresh registry. Used to exercise the
claim theorems on explicit inputs. -/
def sampleReg : Registry := ⟨1, [(0, ⟨"D", ⟨1, 2⟩⟩)], false⟩

/-- A concrete registry with two live entries on destination "D", the state
reached by two registrations on the fresh registry. -/
def sampleReg2 : Registry := ⟨2, [(1, ⟨"D", ⟨3, 4⟩⟩), (0, ⟨"D", ⟨1, 2⟩⟩)], false⟩

/-! ### The claims -/

/-- Claim C1: for every registration, once `cancel` on its token has returned
successfully, the registered handler capability is never invoked again: after
any further sequence of boundary operations, a dispatch to any destination
contains zero invocations for that registration's token. -/
theorem C1_cancel_then_never_invoked {r r' : Registry} {t : Nat}
    (hwf : r.WF) (hc : r.cancel t = .ok r') (ops : List Op)
    (dest src : String) (arg : List Nat) (argLen : Nat) :
    ((r'.run ops).dispatch dest src arg argLen).2.countP (fun e => e.1 == t) = 0 :=
  Registry.dispatch_countP_eq_zero
    (Registry.deadToken_run (Registry.cancel_ok_dead hwf hc) ops).2 dest src arg argLen

/-- Witness for C1 at a concrete input: register one handler, cancel it, then
register another handler on the same destination and dispatch; the cancelled
registration receives nothing. -/
theorem C1_witness :
    sampleReg.WF ∧ sampleReg.cancel 0 = .ok ⟨1, [], false⟩ ∧
    (((⟨1, [], false⟩ : Registry).run [Op.reg "D" ⟨3, 4⟩]).dispatch "D" "S" [7] 1).2.countP
      (fun e => e.1 == 0) = 0 :=
  ⟨by decide, by rfl,
    @C1_cancel_then_never_invoked sampleReg ⟨1, [], false⟩ 0 (by decide) (by rfl)
      [Op.reg "D" ⟨3, 4⟩] "D" "S" [7] 1⟩

/-- Claim C2: `cancel` succeeds at most once per token. After a successful
cancel, every later `cancel` of the same token — after any further sequence of
boundary operations — returns `AlreadyCancelled`; a token never issued (at or
above the counter) returns `UnknownToken`. The operation is a total function
into a result type, so it always yields a determinate value. -/
theorem C2_cancel_single_use {r : Registry} {t : Nat} (hwf : r.WF) :
    (∀ r', r.cancel t = .ok r' → ∀ ops,
      (r'.run ops).cancel t = .error .AlreadyCancelled) ∧
    (r.nextToken ≤ t → r.cancel t = .error .UnknownToken) := by
  constructor
  · intro r' hc ops
    exact Registry.cancel_dead (Registry.deadToken_run (Registry.cancel_ok_dead hwf hc) ops)
  · intro hle
    exact Registry.cancel_unknown hwf.1 hle

/-- Witness for C2 at concrete inputs: cancelling token 0 of the one-entry
registry succeeds once and reports `AlreadyCancelled` on the retry, and
cancelling the never-issued token 1 reports `UnknownToken`. -/
theorem C2_witness :
    ((Registry.run ⟨1, [], false⟩ []).cancel 0 = .error .AlreadyCancelled) ∧
    (sampleReg.cancel 1 = .error .UnknownToken) :=
  ⟨(@C2_cancel_single_use sampleReg 0 (by decide)).1 ⟨1, [], false⟩ (by rfl) [],
    (@C2_cancel_single_use sampleReg 1 (by decide)).2 (by decide)⟩

/-- Claim C3: `dispatch` returns the number of handlers it invoked, and when
no live entry exists for the destination it invokes nothing and returns 0. -/
theorem C3_dispatch_count (r : Registry) (dest src : String) (arg : List Nat)
    (argLen : Nat) :
    (r.dispatch dest src arg argLen).1 = (r.dispatch dest src arg argLen).2.length ∧
    ((∀ e ∈ r.entries, e.2.destination ≠ dest) →
      r.dispatch dest src arg argLen = (0, [])) := by
  constructor
  · simp [Registry.dispatch]
  · intro hnone
    unfold Registry.dispatch
    have hfil : r.entries.filter (fun e => e.2.destination == dest) = [] := by
      rw [List.filter_eq_nil_iff]
      intro e hent
      simpa using hnone e hent
    simp [hfil]

/-- Witness for C3 at a concrete input: the one-entry registry has no handler
for destination "X", so a dispatch to "X" invokes nothing and returns 0. -/
theorem C3_witness :
    (sampleReg.dispatch "X" "S" [7] 1).1 = (sampleReg.dispatch "X" "S" [7] 1).2.length ∧
    sampleReg.dispatch "X" "S" [7] 1 = (0, []) :=
  ⟨(C3_dispatch_count sampleReg "X" "S" [7] 1).1,
    (C3_dispatch_count sampleReg "X" "S" [7] 1).2 (by decide)⟩

/-- Claim C4: after `shutdownAll`, every subsequent `register` — after any
further sequence of boundary operations — fails with `ClosedError`, `cancel`
of any previously issued token reports `AlreadyCancelled` (the entry was
cancelled by the shutdown), and `shutdownAll` is idempotent. -/
theorem C4_shutdown_spec (r : Registry) (t : Nat) (d : String) (w : FFIWrapper)
    (ops : List Op) :
    ((r.shutdownAll.run ops).register d w = .error .ClosedError) ∧
    (t < r.nextToken → (r.shutdownAll.run ops).cancel t = .error .AlreadyCancelled) ∧
    r.shutdownAll.shutdownAll = r.shutdownAll := by
  refine ⟨?_, ?_, rfl⟩
  · exact Registry.register_closed (Registry.closed_run rfl ops) d w
  · intro hlt
    have hdead : r.shutdownAll.DeadToken t :=
      ⟨hlt, by simp [Registry.shutdownAll, Registry.tokens]⟩
    exact Registry.cancel_dead (Registry.deadToken_run hdead ops)

/-- Witness for C4 at a concrete input: shut down the one-entry registry, run
one further registration attempt, then observe that `register` still reports
`ClosedError` and the old token 0 reports `AlreadyCancelled`. -/
theorem C4_witness :
    ((sampleReg.shutdownAll.run [Op.reg "E" ⟨5, 6⟩]).register "D" ⟨1, 2⟩ =
      .error .ClosedError) ∧
    ((sampleReg.shutdownAll.run [Op.reg "E" ⟨5, 6⟩]).cancel 0 =
      .error .AlreadyCancelled) ∧
    sampleReg.shutdownAll.shutdownAll = sampleReg.shutdownAll :=
  ⟨(C4_shutdown_spec sampleReg 0 "D" ⟨1, 2⟩ [Op.reg "E" ⟨5, 6⟩]).1,
    (C4_shutdown_spec sampleReg 0 "D" ⟨1, 2⟩ [Op.reg "E" ⟨5, 6⟩]).2.1 (by decide),
    (C4_shutdown_spec sampleReg 0 "D" ⟨1, 2⟩ [Op.reg "E" ⟨5, 6⟩]).2.2⟩

/-- Claim C5: a single dispatch fans out to all live entries of its
destination: every live entry whose destination matches is invoked exactly
once in the dispatch trace. -/
theorem C5_dispatch_fanout {r : Registry} (hwf : r.WF) (dest src : String)
    (arg : List Nat) (argLen : Nat) {t : Nat} {he : HandlerEntry}
    (hmem : (t, he) ∈ r.entries) (hdest : he.destination = dest) :
    (r.dispatch dest src arg argLen).2.countP (fun e => e.1 == t) = 1 := by
  unfold Registry.dispatch
  simp only
  rw [List.countP_map]
  exact countP_fst_filter_eq_one hwf.2 hmem (by simp [hdest])

/-- Witness for C5 at a concrete input: with two handlers registered on "D",
a dispatch to "D" invokes the one registered under token 0 exactly once (and,
by a second application, the one under token 1 exactly once). -/
theorem C5_witness :
    (sampleReg2.dispatch "D" "S" [7] 1).2.countP (fun e => e.1 == 0) = 1 ∧
    (sampleReg2.dispatch "D" "S" [7] 1).2.countP (fun e => e.1 == 1) = 1 :=
  ⟨@C5_dispatch_fanout sampleReg2 (by decide) "D" "S" [7] 1 0 ⟨"D", ⟨1, 2⟩⟩
      (by decide) (by decide),
    @C5_dispatch_fanout sampleReg2 (by decide) "D" "S" [7] 1 1 ⟨"D", ⟨3, 4⟩⟩
      (by decide) (by decide)⟩

/-- Claim C6: every handler invocation produced by a dispatch carries that
dispatch's source string, payload, and payload length as the callback's
arguments. -/
theorem C6_dispatch_forwards_args {r : Registry} {dest src : String}
    {arg : List Nat} {argLen : Nat} {t : Nat} {inv : CbInvocation}
    (h : (t, inv) ∈ (r.dispatch dest src arg argLen).2) :
    inv.src = src ∧ inv.arg = arg ∧ inv.argLen = argLen := by
  obtain ⟨he, -, -, rfl⟩ := Registry.dispatch_mem h
  exact ⟨rfl, rfl, rfl⟩

/-- Witness for C6 at a concrete input: the one invocation produced by
dispatching to "D" on the one-entry registry carries ("S", [7], 1). -/
theorem C6_witness :
    (⟨1, 2, "S", [7], 1⟩ : CbInvocation).src = "S" ∧
    (⟨1, 2, "S", [7], 1⟩ : CbInvocation).arg = [7] ∧
    (⟨1, 2, "S", [7], 1⟩ : CbInvocation).argLen = 1 :=
  @C6_dispatch_forwards_args sampleReg "D" "S" [7] 1 0 ⟨1, 2, "S", [7], 1⟩ (by decide)

/-- Claim C7: `register` requires a non-empty destination, and the boundary
facade rejects invalid external inputs — a null (`none`) or empty destination,
and a negative or `size_t`-overflowing payload length — with `InvalidInput`
instead of passing them to the registry. -/
theorem C7_boundary_validation (r : Registry) (w : FFIWrapper) (d src : String)
    (arg : List Nat) (len : Int) :
    facadeRegister r none w = .error .InvalidInput ∧
    facadeRegister r (some "") w = .error .InvalidInput ∧
    (r.closed = false → r.register "" w = .error .InvalidInput) ∧
    (len < 0 ∨ (2 : Int) ^ 64 ≤ len →
      facadeDispatch r (some d) src arg len = .error .InvalidInput) := by
  refine ⟨rfl, ?_, ?_, ?_⟩
  · simp [facadeRegister]
  · intro hopen
    unfold Registry.register
    rw [hopen]
    simp
  · intro hlen
    by_cases hd : d = ""
    · subst hd
      simp [facadeDispatch]
    · simp only [facadeDispatch]
      rw [if_neg hd, if_pos hlen]

/-- Witness for C7 at concrete inputs: null and empty destinations are
rejected, registering on the open one-entry registry with an empty destination
is rejected, and a negative length field is rejected. -/
theorem C7_witness :
    facadeRegister sampleReg none ⟨1, 2⟩ = .error .InvalidInput ∧
    facadeRegister sampleReg (some "") ⟨1, 2⟩ = .error .InvalidInput ∧
    sampleReg.register "" ⟨1, 2⟩ = .error .InvalidInput ∧
    facadeDispatch sampleReg (some "D") "S" [7] (-1) = .error .InvalidInput :=
  ⟨(C7_boundary_validation sampleReg ⟨1, 2⟩ "D" "S" [7] (-1)).1,
    (C7_boundary_validation sampleReg ⟨1, 2⟩ "D" "S" [7] (-1)).2.1,
    (C7_boundary_validation sampleReg ⟨1, 2⟩ "D" "S" [7] (-1)).2.2.1 (by rfl),
    (C7_boundary_validation sampleReg ⟨1, 2⟩ "D" "S" [7] (-1)).2.2.2 (by decide)⟩

/-- Claim C8: tokens map 1:1 to entries for the registry's whole lifetime:
every reachable state is well-formed (its live tokens are pairwise distinct,
so no two live tokens share an entry), a freshly issued token is the counter
value and was never live before, and a dead token never aliases any
later-created entry, across any further sequence of operations. -/
theorem C8_token_uniqueness (r : Registry) (ops : List Op) (t : Nat) (d : String)
    (w : FFIWrapper) :
    (Registry.init.run ops).WF ∧
    (r.WF → ∀ t' r', r.register d w = .ok (t', r') →
      t' ∉ r.tokens ∧ t' = r.nextToken) ∧
    (r.DeadToken t → t ∉ (r.run ops).tokens) := by
  refine ⟨Registry.wf_run Registry.wf_init ops, ?_, ?_⟩
  · intro hwf t' r' hreg
    obtain ⟨h1, -, -, -⟩ := Registry.register_ok hreg
    subst h1
    refine ⟨?_, rfl⟩
    intro hmem
    rcases List.mem_map.1 hmem with ⟨e, hent, hfst⟩
    have h5 : e.1 = r.nextToken := hfst
    have h6 := hwf.1 e hent
    omega
  · intro hdead
    exact (Registry.deadToken_run hdead ops).2

/-- Witness for C8 at concrete inputs: a run of two registrations and a cancel
from the fresh registry is well-formed; registering on the one-entry registry
issues the fresh token 1, not previously live; and the cancelled token 0 of
the emptied registry does not reappear after a further registration. -/
theorem C8_witness :
    (Registry.init.run [Op.reg "D" ⟨1, 2⟩, Op.reg "D" ⟨3, 4⟩, Op.can 0]).WF ∧
    ((1 : Nat) ∉ sampleReg.tokens ∧ (1 : Nat) = sampleReg.nextToken) ∧
    (0 : Nat) ∉ ((⟨1, [], false⟩ : Registry).run [Op.reg "D" ⟨3, 4⟩]).tokens :=
  ⟨(C8_token_uniqueness Registry.init [Op.reg "D" ⟨1, 2⟩, Op.reg "D" ⟨3, 4⟩, Op.can 0]
      0 "D" ⟨1, 2⟩).1,
    (C8_token_uniqueness sampleReg [] 0 "D" ⟨3, 4⟩).2.1 (by decide) 1
      ⟨2, [(1, ⟨"D", ⟨3, 4⟩⟩), (0, ⟨"D", ⟨1, 2⟩⟩)], false⟩ (by rfl),
    (C8_token_uniqueness ⟨1, [], false⟩ [Op.reg "D" ⟨3, 4⟩] 0 "D" ⟨1, 2⟩).2.2
      (by decide)⟩

/-- Claim C9: a registered wrapper's callback is always invoked with that same
wrapper's own `cbSelf` as its first argument: `onSend` passes `p->cbSelf` to
`p->cb`, and in a dispatch trace every invocation tagged with a token carries
the `cbSelf` (and `cb`) of the entry registered under that token. -/
theorem C9_callback_gets_own_self {r : Registry} (hwf : r.WF)
    (obj : InternalHandler) (src : String) (arg : List Nat) (argLen : Nat)
    {dest s2 : String} {a2 : List Nat} {n2 : Nat} {t : Nat} {inv : CbInvocation}
    {he : HandlerEntry} (hinv : (t, inv) ∈ (r.dispatch dest s2 a2 n2).2)
    (hent : (t, he) ∈ r.entries) :
    ((obj.onSend src arg argLen).1.self = obj.p.cbSelf ∧
      (obj.onSend src arg argLen).1.cb = obj.p.cb) ∧
    (inv.self = he.wrapper.cbSelf ∧ inv.cb = he.wrapper.cb) := by
  refine ⟨⟨rfl, rfl⟩, ?_⟩
  obtain ⟨he', hent', -, rfl⟩ := Registry.dispatch_mem hinv
  have heq : he' = he := assoc_nodup_unique hwf.2 hent' hent
  subst heq
  exact ⟨rfl, rfl⟩

/-- Witness for C9 at a concrete input: on the one-entry registry, the
invocation tagged with token 0 carries the registered wrapper's
`cbSelf = 2` and `cb = 1`. -/
theorem C9_witness :
    (((⟨⟨5, 6⟩⟩ : InternalHandler).onSend "S" [7] 1).1.self = 6 ∧
      ((⟨⟨5, 6⟩⟩ : InternalHandler).onSend "S" [7] 1).1.cb = 5) ∧
    ((⟨1, 2, "S", [7], 1⟩ : CbInvocation).self = 2 ∧
      (⟨1, 2, "S", [7], 1⟩ : CbInvocation).cb = 1) :=
  @C9_callback_gets_own_self sampleReg (by decide) ⟨⟨5, 6⟩⟩ "S" [7] 1
    "D" "S" [7] 1 0 ⟨1, 2, "S", [7], 1⟩ ⟨"D", ⟨1, 2⟩⟩ (by decide) (by decide)

/-- Claim C10: `onSend` forwards the payload pointer and length to the
wrapper's callback unchanged, and the dispatch path only reads the wrapper's
`cb` and `cbSelf` fields: the handler state after `onSend` is identical, and a
dispatch step leaves the registry (hence every stored wrapper) unchanged. -/
theorem C10_onSend_frame (obj : InternalHandler) (src : String) (arg : List Nat)
    (argLen : Nat) (r : Registry) (dest s2 : String) (a2 : List Nat) (n2 : Nat) :
    (obj.onSend src arg argLen).1.arg = arg ∧
    (obj.onSend src arg argLen).1.argLen = argLen ∧
    (obj.onSend src arg argLen).2 = obj ∧
    r.step (.disp dest s2 a2 n2) = r :=
  ⟨rfl, rfl, rfl, rfl⟩

end Libdummy
